import Mathlib

/-!
Shallow embedding of the todo CRUD service core
(`src/handlers/todo.rs`, `src/main.rs`), together with the
repository and request-validation layers that the handlers are generic over.

The HTTP handlers in `src/handlers/todo.rs` are embedded directly from the
source.  The repository trait (`TodoRepository`), its in-memory variant
(`TodoRepositoryForMemory`), the payload types and the `ValidatedJson`
extractor live in files that are not part of the sources at hand; those are
modelled from the specification, and each such definition says so in its
doc comment.
-/

set_option autoImplicit false

namespace TodoApp

/-! ## Entity and payload types -/

/-- Modelled from the spec: the `Todo` entity of `repositories/todo.rs`
(not among the sources): `{ id, text, completed }`, id assigned by the
store, `completed` defaulting to false on creation. -/
structure Todo where
  id : Int
  text : String
  completed : Bool
deriving DecidableEq, Repr

/-- Modelled from the spec: the `CreateTodo` payload `{ text }`. -/
structure CreateTodo where
  text : String
deriving DecidableEq, Repr

/-- Modelled from the spec: the `UpdateTodo` payload
`{ id, text, completed }`. -/
structure UpdateTodo where
  id : Int
  text : String
  completed : Bool
deriving DecidableEq, Repr

/-! ## JSON values and serialization -/

/-- A JSON value, used to model response bodies and request bodies. -/
inductive Json where
  | null
  | bool (b : Bool)
  | num (n : Int)
  | str (s : String)
  | arr (items : List Json)
  | obj (fields : List (String × Json))

/-- Serialization of a `Todo` to JSON, field order as in the struct. -/
def Todo.toJson (t : Todo) : Json :=
  Json.obj [("id", Json.num t.id), ("text", Json.str t.text),
            ("completed", Json.bool t.completed)]

/-! ## HTTP status codes and responses -/

/-- The status codes the todo handlers can produce. -/
inductive StatusCode where
  | ok                  -- 200
  | created             -- 201
  | noContent           -- 204
  | badRequest          -- 400
  | notFound            -- 404
  | unprocessableEntity -- 422
deriving DecidableEq, Repr

/-- Numeric value of a status code. -/
def StatusCode.code : StatusCode → Nat
  | .ok => 200
  | .created => 201
  | .noContent => 204
  | .badRequest => 400
  | .notFound => 404
  | .unprocessableEntity => 422

/-- An HTTP response: a status code and an optional JSON body
(`none` models an empty body, as produced by a bare `StatusCode`). -/
structure Response where
  status : StatusCode
  body : Option Json

/-! ## Handlers (embedded from `src/handlers/todo.rs`)

Each Rust handler is generic over `T : TodoRepository` and calls exactly one
repository operation; here the repository operation is passed as a function
returning `Except ε`, with the error type `ε` abstract exactly as the
`anyhow`-style error is opaque to the handler.  `Err(StatusCode)` in Rust
becomes a response with that status and an empty body. -/

/-- `create_todo`: `repository.create(payload).or(Err(NOT_FOUND))`, then
`(CREATED, Json(todo))`. -/
def create_todo {ε : Type} (create : CreateTodo → Except ε Todo)
    (payload : CreateTodo) : Response :=
  match create payload with
  | .error _ => ⟨.notFound, none⟩
  | .ok todo => ⟨.created, some todo.toJson⟩

/-- `find_todo`: `repository.find(id).or(Err(NOT_FOUND))`, then
`(OK, Json(todo))`. -/
def find_todo {ε : Type} (find : Int → Except ε Todo) (id : Int) : Response :=
  match find id with
  | .error _ => ⟨.notFound, none⟩
  | .ok todo => ⟨.ok, some todo.toJson⟩

/-- `all_todo`: `repository.all().or(Err(NOT_FOUND))`, then
`(OK, Json(todos))`. -/
def all_todo {ε : Type} (all : Unit → Except ε (List Todo)) : Response :=
  match all () with
  | .error _ => ⟨.notFound, none⟩
  | .ok todos => ⟨.ok, some (Json.arr (todos.map Todo.toJson))⟩

/-- `update_todo`: `repository.update(id, payload).or(Err(NOT_FOUND))`,
then `(OK, Json(todo))`; `id` is the path-extracted id. -/
def update_todo {ε : Type} (update : Int → UpdateTodo → Except ε Todo)
    (id : Int) (payload : UpdateTodo) : Response :=
  match update id payload with
  | .error _ => ⟨.notFound, none⟩
  | .ok todo => ⟨.ok, some todo.toJson⟩

/-- `delete_todo`: `repository.delete(id).map(|_| NO_CONTENT).unwrap_or(NOT_FOUND)`;
both outcomes carry an empty body. -/
def delete_todo {ε : Type} (delete : Int → Except ε Unit) (id : Int) : Response :=
  match delete id with
  | .error _ => ⟨.notFound, none⟩
  | .ok _ => ⟨.noContent, none⟩

/-! ## Repository errors and the in-memory repository

`repositories/todo.rs` is not among the sources; the in-memory variant is
modelled from the spec: a mapping from id to entity plus a next-id counter
that always reflects the count of successful creations (ids `1..=N` in
creation order, no reuse after deletion), `all()` ordered by id ascending. -/

/-- Modelled from the spec: the repository error. The interface does not
distinguish "not found" from "backend error" at this layer; the in-memory
variant only ever produces `notFound`. -/
inductive RepoError where
  | notFound
deriving DecidableEq, Repr

/-- Modelled from the spec: the state of `TodoRepositoryForMemory` — the
entities, kept ordered by id ascending, plus the next-id counter. -/
structure MemStore where
  todos : List Todo
  nextId : Int
deriving DecidableEq, Repr

/-- A fresh (empty) in-memory store: no entities, next id 1. -/
def freshStore : MemStore := ⟨[], 1⟩

/-- Insert a todo into an id-ordered list, replacing any entry with the
same id (map semantics keyed by id). -/
def insertTodo (t : Todo) : List Todo → List Todo
  | [] => [t]
  | u :: rest =>
    if t.id < u.id then t :: u :: rest
    else if t.id = u.id then t :: rest
    else u :: insertTodo t rest

/-- Look up the entity with the given id. -/
def lookupTodo (id : Int) : List Todo → Option Todo
  | [] => none
  | u :: rest => if u.id = id then some u else lookupTodo id rest

/-- Remove every entity with the given id (map deletion keyed by id). -/
def removeTodo (id : Int) (l : List Todo) : List Todo :=
  l.filter (fun u => u.id != id)

/-- Modelled from the spec: in-memory `create` — the store assigns the next
id, `completed` defaults to false, the counter advances; always succeeds. -/
def memCreate (payload : CreateTodo) (s : MemStore) :
    Except RepoError Todo × MemStore :=
  let todo : Todo := ⟨s.nextId, payload.text, false⟩
  (Except.ok todo, ⟨insertTodo todo s.todos, s.nextId + 1⟩)

/-- Modelled from the spec: in-memory `find` — fails with `NotFound` if no
entity with that id exists. -/
def memFind (id : Int) (s : MemStore) : Except RepoError Todo :=
  match lookupTodo id s.todos with
  | none => Except.error RepoError.notFound
  | some t => Except.ok t

/-- Modelled from the spec: in-memory `all` — the entities ordered by id
ascending; an empty result set is not an error. -/
def memAll (s : MemStore) : Except RepoError (List Todo) :=
  Except.ok s.todos

/-- Modelled from the spec: in-memory `update` — replaces text/completed of
the entity with the target id; fails with `NotFound` if the id does not
exist. The payload's own `id` field plays no role. -/
def memUpdate (id : Int) (payload : UpdateTodo) (s : MemStore) :
    Except RepoError Todo × MemStore :=
  match lookupTodo id s.todos with
  | none => (Except.error RepoError.notFound, s)
  | some _ =>
    let todo : Todo := ⟨id, payload.text, payload.completed⟩
    (Except.ok todo, ⟨insertTodo todo s.todos, s.nextId⟩)

/-- Modelled from the spec: in-memory `delete` — removes the entity with
the target id; fails with `NotFound` if the id does not exist. The next-id
counter is untouched. -/
def memDelete (id : Int) (s : MemStore) : Except RepoError Unit × MemStore :=
  match lookupTodo id s.todos with
  | none => (Except.error RepoError.notFound, s)
  | some _ => (Except.ok (), ⟨removeTodo id s.todos, s.nextId⟩)

/-! ## The validated request gate

`handlers/mod.rs` (the `ValidatedJson` extractor) is not among the sources;
it is modelled from the spec: parse the body into the payload shape
(failure → `MalformedBody` → 400), then apply the declarative field
constraints (violation → `ValidationFailed` → 422). -/

/-- Modelled from the spec: gate rejections. `validationFailed` carries the
list of violated constraints. -/
inductive Rejection where
  | malformedBody
  | validationFailed (violations : List String)
deriving DecidableEq, Repr

/-- The HTTP status of a gate rejection: 400 for a malformed body, 422 for
a constraint violation. -/
def rejectionStatus : Rejection → StatusCode
  | .malformedBody => .badRequest
  | .validationFailed _ => .unprocessableEntity

/-- Modelled from the spec: the fixed maximum length of `text`. -/
def maxTextLength : Nat := 100

/-- Modelled from the spec: the declarative constraints on `text` — must be
non-empty and at most `maxTextLength` characters; the result lists the
violated constraints. -/
def textViolations (s : String) : List String :=
  (if s.length = 0 then ["text can not be empty"] else []) ++
  (if maxTextLength < s.length then ["text is over the length limit"] else [])

/-- Field access in a JSON object. -/
def jsonField (key : String) : List (String × Json) → Option Json
  | [] => none
  | (k, v) :: rest => if k = key then some v else jsonField key rest

/-- Modelled from the spec: deserializing a JSON value into `CreateTodo`
(an object with a string field `text`). -/
def parseCreateTodo : Json → Option CreateTodo
  | Json.obj fields =>
    match jsonField "text" fields with
    | some (Json.str s) => some ⟨s⟩
    | _ => none
  | _ => none

/-- Modelled from the spec: deserializing a JSON value into `UpdateTodo`
(an object with fields `id`, `text`, `completed` of the right types). -/
def parseUpdateTodo : Json → Option UpdateTodo
  | Json.obj fields =>
    match jsonField "id" fields, jsonField "text" fields,
          jsonField "completed" fields with
    | some (Json.num i), some (Json.str s), some (Json.bool b) => some ⟨i, s, b⟩
    | _, _, _ => none
  | _ => none

/-- Modelled from the spec: the `ValidatedJson` extractor. The request body
is `none` when the bytes are not valid JSON at all; parse failure yields
`malformedBody`, a non-empty violation list yields `validationFailed`, and
only a payload satisfying every constraint reaches the handler. -/
def validatedJson {α : Type} (parse : Json → Option α)
    (violations : α → List String) (body : Option Json) : Except Rejection α :=
  match body with
  | none => Except.error Rejection.malformedBody
  | some j =>
    match parse j with
    | none => Except.error Rejection.malformedBody
    | some payload =>
      match violations payload with
      | [] => Except.ok payload
      | vs => Except.error (Rejection.validationFailed vs)

/-- The constraints checked on a `CreateTodo` payload. -/
def createTodoViolations (p : CreateTodo) : List String :=
  textViolations p.text

/-- The constraints checked on an `UpdateTodo` payload. -/
def updateTodoViolations (p : UpdateTodo) : List String :=
  textViolations p.text

/-! ## Endpoints over the in-memory repository

Route wiring from `src/main.rs`: the gate runs first; only a validated
payload reaches the handler, which performs the single repository call. -/

/-- POST `/todos` against the in-memory store: gate, then `create_todo`.
A rejected request leaves the store untouched (no repository call). -/
def postTodosMem (body : Option Json) (s : MemStore) : Response × MemStore :=
  match validatedJson parseCreateTodo createTodoViolations body with
  | .error r => (⟨rejectionStatus r, none⟩, s)
  | .ok payload =>
    (create_todo (fun p => (memCreate p s).1) payload, (memCreate payload s).2)

/-- PATCH `/todos/:id` against the in-memory store: gate, then
`update_todo` with the path-extracted id. A rejected request leaves the
store untouched (no repository call). -/
def patchTodosMem (id : Int) (body : Option Json) (s : MemStore) :
    Response × MemStore :=
  match validatedJson parseUpdateTodo updateTodoViolations body with
  | .error r => (⟨rejectionStatus r, none⟩, s)
  | .ok payload =>
    (update_todo (fun i p => (memUpdate i p s).1) id payload,
     (memUpdate id payload s).2)

/-! ## Operation sequences on the in-memory store -/

/-- One repository operation, for reasoning about arbitrary sequences. -/
inductive Op where
  | create (payload : CreateTodo)
  | find (id : Int)
  | update (id : Int) (payload : UpdateTodo)
  | delete (id : Int)
  | all
deriving Repr

/-- The store after one operation. -/
def applyOp (s : MemStore) : Op → MemStore
  | .create p => (memCreate p s).2
  | .find _ => s
  | .update id p => (memUpdate id p s).2
  | .delete id => (memDelete id s).2
  | .all => s

/-- The store after a sequence of operations. -/
def runOps (s : MemStore) : List Op → MemStore
  | [] => s
  | op :: rest => runOps (applyOp s op) rest

/-- The ids assigned by the successful creations of a sequence, in
creation order. -/
def createdIds (s : MemStore) : List Op → List Int
  | [] => []
  | Op.create p :: rest =>
    match (memCreate p s).1 with
    | .ok t => t.id :: createdIds (applyOp s (Op.create p)) rest
    | .error _ => createdIds (applyOp s (Op.create p)) rest
  | op :: rest => createdIds (applyOp s op) rest

/-- The number of creations in a sequence. -/
def countCreates : List Op → Nat
  | [] => 0
  | Op.create _ :: rest => countCreates rest + 1
  | _ :: rest => countCreates rest

/-- The ascending run of `n` ids starting at `start`. -/
def idRange (start : Int) : Nat → List Int
  | 0 => []
  | n + 1 => start :: idRange (start + 1) n

/-! ## Lemmas about the in-memory map operations -/

theorem lookupTodo_insertTodo_self (t : Todo) :
    ∀ l : List Todo, lookupTodo t.id (insertTodo t l) = some t := by
  intro l
  induction l with
  | nil => simp [insertTodo, lookupTodo]
  | cons u rest ih =>
    by_cases h1 : t.id < u.id
    · simp [insertTodo, h1, lookupTodo]
    · by_cases h2 : t.id = u.id
      · simp [insertTodo, h1, h2, lookupTodo]
      · have h3 : u.id ≠ t.id := fun h => h2 h.symm
        simp [insertTodo, h1, h2, lookupTodo, h3, ih]

theorem lookupTodo_insertTodo_ne (t : Todo) (j : Int) (hj : j ≠ t.id) :
    ∀ l : List Todo, lookupTodo j (insertTodo t l) = lookupTodo j l := by
  intro l
  have h3 : t.id ≠ j := fun h => hj h.symm
  induction l with
  | nil => simp [insertTodo, lookupTodo, h3]
  | cons u rest ih =>
    by_cases h1 : t.id < u.id
    · simp [insertTodo, h1, lookupTodo, h3]
    · by_cases h2 : t.id = u.id
      · have h4 : u.id ≠ j := by rw [← h2]; exact h3
        simp [insertTodo, h1, h2, lookupTodo, h3, h4]
      · simp [insertTodo, h1, h2, lookupTodo, ih]

theorem lookupTodo_removeTodo (id : Int) :
    ∀ l : List Todo, lookupTodo id (removeTodo id l) = none := by
  intro l
  induction l with
  | nil => simp [removeTodo, lookupTodo]
  | cons u rest ih =>
    by_cases h : u.id = id
    · simpa [removeTodo, h] using ih
    · simpa [removeTodo, h, lookupTodo] using ih

theorem mem_insertTodo (t x : Todo) :
    ∀ l : List Todo, x ∈ insertTodo t l → x = t ∨ x ∈ l := by
  intro l
  induction l with
  | nil => simp [insertTodo]
  | cons u rest ih =>
    by_cases h1 : t.id < u.id
    · simp [insertTodo, h1]
    · by_cases h2 : t.id = u.id
      · simp [insertTodo, h1, h2]
        tauto
      · simp only [insertTodo, if_neg h1, if_neg h2, List.mem_cons]
        intro h
        rcases h with h | h
        · tauto
        · rcases ih h with h | h <;> tauto

theorem insertTodo_pairwise (t : Todo) :
    ∀ l : List Todo, l.Pairwise (fun a b => a.id < b.id) →
      (insertTodo t l).Pairwise (fun a b => a.id < b.id) := by
  intro l
  induction l with
  | nil => intro _; simp [insertTodo]
  | cons u rest ih =>
    intro h
    rw [List.pairwise_cons] at h
    obtain ⟨hu, hrest⟩ := h
    by_cases h1 : t.id < u.id
    · simp only [insertTodo, if_pos h1]
      refine List.Pairwise.cons ?_ (List.Pairwise.cons hu hrest)
      intro x hx
      rcases List.mem_cons.mp hx with rfl | hx
      · exact h1
      · exact lt_trans h1 (hu x hx)
    · by_cases h2 : t.id = u.id
      · simp only [insertTodo, if_neg h1, if_pos h2]
        refine List.Pairwise.cons ?_ hrest
        intro x hx
        rw [h2]
        exact hu x hx
      · simp only [insertTodo, if_neg h1, if_neg h2]
        refine List.Pairwise.cons ?_ (ih hrest)
        intro x hx
        rcases mem_insertTodo t x rest hx with rfl | hx
        · exact lt_of_le_of_ne (not_lt.mp h1) (fun h => h2 h.symm)
        · exact hu x hx

theorem removeTodo_sublist (id : Int) :
    ∀ l : List Todo, List.Sublist (removeTodo id l) l := by
  intro l
  exact List.filter_sublist l

theorem memUpdate_nextId (id : Int) (p : UpdateTodo) (s : MemStore) :
    ((memUpdate id p s).2).nextId = s.nextId := by
  cases h : lookupTodo id s.todos <;> simp [memUpdate, h]

theorem memDelete_nextId (id : Int) (s : MemStore) :
    ((memDelete id s).2).nextId = s.nextId := by
  cases h : lookupTodo id s.todos <;> simp [memDelete, h]

theorem validatedJson_ok_no_violation {α : Type} (parse : Json → Option α)
    (viol : α → List String) (body : Option Json) (p : α)
    (h : validatedJson parse viol body = Except.ok p) : viol p = [] := by
  cases body with
  | none =>
    simp only [validatedJson] at h
    exact Except.noConfusion h
  | some j =>
    simp only [validatedJson] at h
    cases hp : parse j with
    | none =>
      simp only [hp] at h
      exact Except.noConfusion h
    | some q =>
      simp only [hp] at h
      cases hv : viol q with
      | nil =>
        simp only [hv] at h
        simp only [Except.ok.injEq] at h
        rw [← h]
        exact hv
      | cons a as =>
        simp only [hv] at h
        exact Except.noConfusion h

theorem runOps_sorted (ops : List Op) :
    ∀ s : MemStore, s.todos.Pairwise (fun a b => a.id < b.id) →
      (runOps s ops).todos.Pairwise (fun a b => a.id < b.id) := by
  induction ops with
  | nil => intro s hs; exact hs
  | cons op rest ih =>
    intro s hs
    refine ih (applyOp s op) ?_
    cases op with
    | create p => exact insertTodo_pairwise _ _ hs
    | find id => exact hs
    | all => exact hs
    | update id p =>
      cases h : lookupTodo id s.todos with
      | none => simpa [applyOp, memUpdate, h] using hs
      | some u =>
        simp only [applyOp, memUpdate, h]
        exact insertTodo_pairwise _ _ hs
    | delete id =>
      cases h : lookupTodo id s.todos with
      | none => simpa [applyOp, memDelete, h] using hs
      | some u =>
        simp only [applyOp, memDelete, h]
        exact List.Pairwise.sublist (removeTodo_sublist id s.todos) hs

theorem createdIds_spec (ops : List Op) :
    ∀ s : MemStore,
      createdIds s ops = idRange s.nextId (countCreates ops) ∧
      (runOps s ops).nextId = s.nextId + (countCreates ops : Int) := by
  induction ops with
  | nil => intro s; simp [createdIds, idRange, countCreates, runOps]
  | cons op rest ih =>
    intro s
    cases op with
    | create p =>
      have h := ih (applyOp s (Op.create p))
      have hnext : (applyOp s (Op.create p)).nextId = s.nextId + 1 := rfl
      constructor
      · simp only [createdIds, memCreate, countCreates, idRange]
        rw [h.1, hnext]
      · simp only [runOps, countCreates]
        rw [h.2, hnext]
        push_cast
        ring
    | find id =>
      have h := ih s
      constructor
      · simpa only [createdIds, countCreates, applyOp] using h.1
      · simpa only [runOps, countCreates, applyOp] using h.2
    | all =>
      have h := ih s
      constructor
      · simpa only [createdIds, countCreates, applyOp] using h.1
      · simpa only [runOps, countCreates, applyOp] using h.2
    | update id p =>
      have h := ih (applyOp s (Op.update id p))
      have hnext : (applyOp s (Op.update id p)).nextId = s.nextId :=
        memUpdate_nextId id p s
      constructor
      · simp only [createdIds, countCreates]
        rw [h.1, hnext]
      · simp only [runOps, countCreates]
        rw [h.2, hnext]
    | delete id =>
      have h := ih (applyOp s (Op.delete id))
      have hnext : (applyOp s (Op.delete id)).nextId = s.nextId :=
        memDelete_nextId id s
      constructor
      · simp only [createdIds, countCreates]
        rw [h.1, hnext]
      · simp only [runOps, countCreates]
        rw [h.2, hnext]

theorem mem_idRange : ∀ (n : Nat) (a x : Int), x ∈ idRange a n → a ≤ x := by
  intro n
  induction n with
  | zero => intro a x h; simp [idRange] at h
  | succ m ih =>
    intro a x h
    simp only [idRange, List.mem_cons] at h
    rcases h with rfl | h
    · exact le_refl x
    · linarith [ih (a + 1) x h]

theorem idRange_pairwise : ∀ (n : Nat) (a : Int), (idRange a n).Pairwise (· < ·) := by
  intro n
  induction n with
  | zero => intro a; simp [idRange]
  | succ m ih =>
    intro a
    simp only [idRange]
    refine List.Pairwise.cons ?_ (ih (a + 1))
    intro x hx
    have := mem_idRange m (a + 1) x hx
    linarith

/-! ## Claim theorems -/

/-- C1: for the find, update, and delete handlers, every repository failure
is mapped to HTTP 404 Not Found, regardless of the error value — the
response is the same constant `404` with empty body whatever the failure
was, so the response alone never distinguishes a genuinely absent id from a
backend failure. -/
theorem find_update_delete_failure_is_404 {ε : Type}
    (find : Int → Except ε Todo) (upd : Int → UpdateTodo → Except ε Todo)
    (del : Int → Except ε Unit) (id₁ id₂ id₃ : Int) (payload : UpdateTodo)
    (e₁ e₂ e₃ : ε)
    (h₁ : find id₁ = Except.error e₁)
    (h₂ : upd id₂ payload = Except.error e₂)
    (h₃ : del id₃ = Except.error e₃) :
    find_todo find id₁ = ⟨StatusCode.notFound, none⟩ ∧
    update_todo upd id₂ payload = ⟨StatusCode.notFound, none⟩ ∧
    delete_todo del id₃ = ⟨StatusCode.notFound, none⟩ := by
  refine ⟨?_, ?_, ?_⟩ <;>
    simp [find_todo, update_todo, delete_todo, h₁, h₂, h₃]

/-- Witness for C1, with `Bool` as the error type: `true` standing for a
genuinely absent id and `false` for a backend failure — both collapse to
the same 404 response. -/
theorem find_update_delete_failure_is_404_witness :
    find_todo (fun _ => (Except.error true : Except Bool Todo)) 0
        = ⟨StatusCode.notFound, none⟩ ∧
    update_todo (fun _ _ => (Except.error false : Except Bool Todo)) 0
        ⟨0, "x", false⟩ = ⟨StatusCode.notFound, none⟩ ∧
    delete_todo (fun _ => (Except.error true : Except Bool Unit)) 0
        = ⟨StatusCode.notFound, none⟩ :=
  find_update_delete_failure_is_404 _ _ _ 0 0 0 ⟨0, "x", false⟩
    true false true rfl rfl rfl

/-- C3: on repository success each handler returns exactly the specified
status: 201 with the entity JSON for create, 200 with JSON for find,
update, and list, and 204 with an empty body for delete. -/
theorem handler_success_statuses {ε : Type}
    (create : CreateTodo → Except ε Todo) (find : Int → Except ε Todo)
    (all : Unit → Except ε (List Todo)) (upd : Int → UpdateTodo → Except ε Todo)
    (del : Int → Except ε Unit)
    (cp : CreateTodo) (id₁ id₂ id₃ : Int) (up : UpdateTodo)
    (t₁ t₂ t₃ : Todo) (ts : List Todo)
    (h₁ : create cp = Except.ok t₁) (h₂ : find id₁ = Except.ok t₂)
    (h₃ : all () = Except.ok ts) (h₄ : upd id₂ up = Except.ok t₃)
    (h₅ : del id₃ = Except.ok ()) :
    create_todo create cp = ⟨StatusCode.created, some t₁.toJson⟩ ∧
    find_todo find id₁ = ⟨StatusCode.ok, some t₂.toJson⟩ ∧
    all_todo all = ⟨StatusCode.ok, some (Json.arr (ts.map Todo.toJson))⟩ ∧
    update_todo upd id₂ up = ⟨StatusCode.ok, some t₃.toJson⟩ ∧
    delete_todo del id₃ = ⟨StatusCode.noContent, none⟩ := by
  refine ⟨?_, ?_, ?_, ?_, ?_⟩ <;>
    simp [create_todo, find_todo, all_todo, update_todo, delete_todo,
          h₁, h₂, h₃, h₄, h₅]

/-- Witness for C3 on concrete always-succeeding repository operations. -/
theorem handler_success_statuses_witness :
    create_todo (fun _ => (Except.ok ⟨1, "a", false⟩ : Except Unit Todo))
        ⟨"a"⟩ = ⟨StatusCode.created, some (Todo.mk 1 "a" false).toJson⟩ ∧
    find_todo (fun _ => (Except.ok ⟨1, "a", false⟩ : Except Unit Todo)) 1
        = ⟨StatusCode.ok, some (Todo.mk 1 "a" false).toJson⟩ ∧
    all_todo (fun _ => (Except.ok [⟨1, "a", false⟩] : Except Unit (List Todo)))
        = ⟨StatusCode.ok, some (Json.arr ([Todo.mk 1 "a" false].map Todo.toJson))⟩ ∧
    update_todo (fun i p => (Except.ok ⟨i, p.text, p.completed⟩ : Except Unit Todo))
        1 ⟨1, "b", true⟩ = ⟨StatusCode.ok, some (Todo.mk 1 "b" true).toJson⟩ ∧
    delete_todo (fun _ => (Except.ok () : Except Unit Unit)) 1
        = ⟨StatusCode.noContent, none⟩ :=
  handler_success_statuses _ _ _ _ _ ⟨"a"⟩ 1 1 1 ⟨1, "b", true⟩
    ⟨1, "a", false⟩ ⟨1, "a", false⟩ ⟨1, "b", true⟩ [⟨1, "a", false⟩]
    rfl rfl rfl rfl rfl

/-- C9: the create and list handlers also map every repository failure to
HTTP 404 Not Found, even though they are not by-id lookups — a failed
create or a backend failure during list yields the same 404 response with
empty body as absence would. -/
theorem create_all_failure_is_404 {ε : Type}
    (create : CreateTodo → Except ε Todo) (all : Unit → Except ε (List Todo))
    (payload : CreateTodo) (e₁ e₂ : ε)
    (h₁ : create payload = Except.error e₁)
    (h₂ : all () = Except.error e₂) :
    create_todo create payload = ⟨StatusCode.notFound, none⟩ ∧
    all_todo all = ⟨StatusCode.notFound, none⟩ := by
  refine ⟨?_, ?_⟩ <;> simp [create_todo, all_todo, h₁, h₂]

/-- Witness for C9 on concrete failing repository operations. -/
theorem create_all_failure_is_404_witness :
    create_todo (fun _ => (Except.error false : Except Bool Todo)) ⟨"a"⟩
        = ⟨StatusCode.notFound, none⟩ ∧
    all_todo (fun _ => (Except.error true : Except Bool (List Todo)))
        = ⟨StatusCode.notFound, none⟩ :=
  create_all_failure_is_404 _ _ ⟨"a"⟩ false true rfl rfl

/-- C4: for every valid CreateTodo payload and every store state, `create`
followed by `find` on the returned entity's id succeeds and yields an
entity equal to the one `create` returned. -/
theorem create_then_find_roundtrip :
    ∀ (s : MemStore) (payload : CreateTodo),
      ∃ t : Todo, (memCreate payload s).1 = Except.ok t ∧
        memFind t.id (memCreate payload s).2 = Except.ok t := by
  intro s payload
  refine ⟨⟨s.nextId, payload.text, false⟩, rfl, ?_⟩
  have h := lookupTodo_insertTodo_self
    (⟨s.nextId, payload.text, false⟩ : Todo) s.todos
  simp only [memCreate, memFind]
  simp only at h
  rw [h]

/-- C6: for every id, on a fresh store `find`, `update`, and `delete` each
fail with `NotFound` (the fresh store contains no id at all), and on any
store a repeated `delete` of the same id fails with `NotFound` without
changing the store state. -/
theorem absent_id_not_found_and_delete_idempotent :
    ∀ (id : Int) (p : UpdateTodo) (s : MemStore),
      memFind id freshStore = Except.error RepoError.notFound ∧
      memUpdate id p freshStore = (Except.error RepoError.notFound, freshStore) ∧
      memDelete id freshStore = (Except.error RepoError.notFound, freshStore) ∧
      memDelete id (memDelete id s).2
        = (Except.error RepoError.notFound, (memDelete id s).2) := by
  intro id p s
  refine ⟨rfl, rfl, rfl, ?_⟩
  have h : lookupTodo id ((memDelete id s).2).todos = none := by
    cases hl : lookupTodo id s.todos with
    | none => simp [memDelete, hl]
    | some t => simp [memDelete, hl, lookupTodo_removeTodo]
  have key : ∀ s₂ : MemStore, lookupTodo id s₂.todos = none →
      memDelete id s₂ = (Except.error RepoError.notFound, s₂) := by
    intro s₂ h₂
    simp [memDelete, h₂]
  exact key _ h

/-- C2: for every mutating request, the body is parsed and validated before
the handler: a gate rejection is surfaced as HTTP 400 (malformed body) or
422 (constraint violation) and leaves the store untouched — no repository
call is made — while on acceptance the payload the handler observes
satisfies every declared constraint. -/
theorem gate_rejects_before_repository :
    rejectionStatus Rejection.malformedBody = StatusCode.badRequest ∧
    (∀ vs : List String,
      rejectionStatus (Rejection.validationFailed vs)
        = StatusCode.unprocessableEntity) ∧
    (∀ (body : Option Json) (s : MemStore),
      match validatedJson parseCreateTodo createTodoViolations body with
      | .error r => postTodosMem body s = (⟨rejectionStatus r, none⟩, s)
      | .ok p => createTodoViolations p = []) ∧
    (∀ (id : Int) (body : Option Json) (s : MemStore),
      match validatedJson parseUpdateTodo updateTodoViolations body with
      | .error r => patchTodosMem id body s = (⟨rejectionStatus r, none⟩, s)
      | .ok p => updateTodoViolations p = []) := by
  refine ⟨rfl, fun _ => rfl, ?_, ?_⟩
  · intro body s
    cases h : validatedJson parseCreateTodo createTodoViolations body with
    | error r => simp [postTodosMem, h]
    | ok p => exact validatedJson_ok_no_violation _ _ _ _ h
  · intro id body s
    cases h : validatedJson parseUpdateTodo updateTodoViolations body with
    | error r => simp [patchTodosMem, h]
    | ok p => exact validatedJson_ok_no_violation _ _ _ _ h

/-- C5: after any sequence of operations on a fresh in-memory store, the
ids assigned by the store's successful creations are exactly `1..=N` in
creation order (`N` the number of creations in the sequence), and they are
pairwise distinct — deletions never cause an id to be reused, since the
next-id counter is untouched by every non-create operation. -/
theorem created_ids_are_one_to_n :
    ∀ ops : List Op,
      createdIds freshStore ops = idRange 1 (countCreates ops) ∧
      (createdIds freshStore ops).Nodup := by
  intro ops
  have h := (createdIds_spec ops freshStore).1
  refine ⟨h, ?_⟩
  rw [h]
  exact List.Pairwise.imp (fun hab => ne_of_lt hab)
    (idRange_pairwise (countCreates ops) 1)

/-- C7: `all()` on a fresh (empty) in-memory store succeeds with the empty
sequence — an empty result set is not an error — and after any sequence of
operations on a fresh store `all()` succeeds and its result is strictly
ordered by id ascending. -/
theorem all_on_empty_ok_and_sorted :
    memAll freshStore = Except.ok ([] : List Todo) ∧
    ∀ ops : List Op,
      match memAll (runOps freshStore ops) with
      | .ok todos => todos.Pairwise (fun a b => a.id < b.id)
      | .error _ => False := by
  refine ⟨rfl, ?_⟩
  intro ops
  simp only [memAll]
  exact runOps_sorted ops freshStore (by simp [freshStore])

/-- C8: POST `/todos` with body `{"text":"should_created_todo"}` against an
empty in-memory store returns status 201 with body
`{"id":1,"text":"should_created_todo","completed":false}` — the first
assigned id is 1 and `completed` defaults to false — and the resulting
store holds exactly that entity, with the next id advanced to 2. -/
theorem post_todos_concrete_scenario :
    postTodosMem (some (Json.obj [("text", Json.str "should_created_todo")]))
        freshStore =
      (⟨StatusCode.created,
        some (Json.obj [("id", Json.num 1),
                        ("text", Json.str "should_created_todo"),
                        ("completed", Json.bool false)])⟩,
       ⟨[⟨1, "should_created_todo", false⟩], 2⟩) := by
  rfl

/-- C10: the update handler targets the path-extracted id, not the id field
carried inside the UpdateTodo payload: a probe repository receives the path
id as its target argument, and against the in-memory store the updated
entity carries the path id while the entry at any other id — in particular
at the payload's own id field when it differs — is untouched. -/
theorem update_handler_uses_path_id :
    ∀ (id : Int) (payload : UpdateTodo) (s : MemStore),
      update_todo (fun i p =>
          (Except.ok ⟨i, p.text, p.completed⟩ : Except Unit Todo)) id payload
        = ⟨StatusCode.ok, some (Todo.mk id payload.text payload.completed).toJson⟩ ∧
      (∀ t : Todo, (memUpdate id payload s).1 = Except.ok t → t.id = id) ∧
      (∀ j : Int, j ≠ id →
        lookupTodo j ((memUpdate id payload s).2).todos
          = lookupTodo j s.todos) := by
  intro id payload s
  refine ⟨rfl, ?_, ?_⟩
  · intro t ht
    cases hl : lookupTodo id s.todos with
    | none => simp [memUpdate, hl] at ht
    | some u =>
      simp only [memUpdate, hl, Except.ok.injEq] at ht
      rw [← ht]
  · intro j hj
    cases hl : lookupTodo id s.todos with
    | none => simp [memUpdate, hl]
    | some u =>
      simp only [memUpdate, hl]
      exact lookupTodo_insertTodo_ne
        (⟨id, payload.text, payload.completed⟩ : Todo) j hj s.todos

/-- Witness for C10: updating id 1 with a payload whose own id field is 5
yields an entity with id 1, and the entry at id 7 is untouched. -/
theorem update_handler_uses_path_id_witness :
    (Todo.mk 1 "b" true).id = 1 ∧
    lookupTodo 7 ((memUpdate 1 ⟨5, "b", true⟩
        ⟨[⟨1, "a", false⟩], 2⟩).2).todos
      = lookupTodo 7 ((⟨[⟨1, "a", false⟩], 2⟩ : MemStore)).todos :=
  ⟨(update_handler_uses_path_id 1 ⟨5, "b", true⟩
      ⟨[⟨1, "a", false⟩], 2⟩).2.1 ⟨1, "b", true⟩ rfl,
   (update_handler_uses_path_id 1 ⟨5, "b", true⟩
      ⟨[⟨1, "a", false⟩], 2⟩).2.2 7 (by decide)⟩

end TodoApp
